import Mathlib

/-!
Verification of the CleanScript transcript pipeline
(`src/app/api/getscript/route.ts`, buffer-based route).

The TypeScript route is embedded shallowly: each function of the source is
translated into an executable Lean definition.  External effects (the ytdl
stream, the Deepgram call, the Gemini call) are modelled by explicit outcome
values passed to the functions that await them; everything downstream of those
outcomes is translated from the source line by line.  JavaScript strings are
modelled as Lean strings over their character lists (the inputs of interest
are ASCII), JavaScript numbers as exact rationals (no claim depends on float
rounding), and thrown exceptions as `Except` errors.
-/

namespace CleanScript

/-- Raw transcript segment (interface `TranscriptSegment`): start/end seconds
and the utterance text. -/
structure TranscriptSegment where
  start : ℚ
  «end» : ℚ
  text : String

/-- A JSON value as produced by the JavaScript `JSON.parse` builtin.  Numbers
are modelled as exact rationals; object fields keep source order (lookup takes
the last binding, as `JSON.parse` does for duplicate keys). -/
inductive Json where
  | null : Json
  | bool (b : Bool) : Json
  | num (q : ℚ) : Json
  | str (s : String) : Json
  | arr (elems : List Json) : Json
  | obj (fields : List (String × Json)) : Json

/-- Cleaned segment (interface `CleanedSegment`).  All four fields are
optional at runtime: the AI path fills them from whatever JSON the model
returned (possibly absent, possibly not numbers/strings), the local paths fill
them with the raw segment's values.  A field holds the JSON value the
JavaScript object would hold, or `none` for `undefined`. -/
structure CleanedSegment where
  start : Option Json
  «end» : Option Json
  originalText : Option Json := none
  cleanedText : Option Json := none

/-! ### Character helpers shared by the regex translations -/

/-- JavaScript regex word character, `\w` = `[A-Za-z0-9_]`. -/
def isWordChar (c : Char) : Bool :=
  c.isAlphanum || c = '_'

/-- Word-character test lifted to an optional character (`none` stands for the
edge of the string, which is a non-word position). -/
def isWordOpt : Option Char → Bool
  | none => false
  | some c => isWordChar c

/-- JavaScript regex whitespace `\s` restricted to ASCII (the unicode space
classes never occur in the inputs considered here). -/
def isJsSpace (c : Char) : Bool :=
  c = ' ' || c = '\t' || c = '\n' || c = '\r' || c = '\x0b' || c = '\x0c'

/-! ### `simpleCleanTranscript` — the Tier 2 local cleanup -/

/-- The fixed filler-phrase list of `simpleCleanTranscript`, in source order. -/
def fillerWords : List String :=
  ["um", "uh", "ah", "er", "like", "you know", "so", "well",
   "actually", "basically", "literally", "right", "okay", "alright",
   "kind of", "sort of", "i mean", "you see", "let me see"]

/-- Case-insensitive literal match of `pat` against a prefix of the input,
returning the remainder on success (the `i` flag of the filler regexes;
ASCII case folding). -/
def dropMatchCI : List Char → List Char → Option (List Char)
  | [], cs => some cs
  | _ :: _, [] => none
  | p :: ps, c :: cs => if c.toLower = p.toLower then dropMatchCI ps cs else none

/-- One global pass of `text.replace(new RegExp("\\b" ++ filler ++ "\\b", "gi"), "")`:
scan left to right; at each position, if the filler matches case-insensitively
and both `\b` boundaries hold against the original characters, delete the match
and resume after it (as the regex `lastIndex` does); otherwise emit the
character.  `prev` is the original character before the current position.
The fuel argument keeps the recursion structural: every step consumes at least
one input character, so fuel equal to the input length (as passed by
`replaceWordAux`) is never exhausted. -/
def replaceWordFuel (filler : List Char) : Nat → Option Char → List Char → List Char
  | 0, _, cs => cs
  | _ + 1, _, [] => []
  | fuel + 1, prev, c :: rest =>
    match filler with
    | [] => c :: replaceWordFuel filler fuel (some c) rest
    | f0 :: fs =>
      if c.toLower = f0.toLower then
        match dropMatchCI fs rest with
        | some rest' =>
          if (isWordOpt prev != isWordChar c)
              && (isWordChar (filler.getLastD c) != isWordOpt rest'.head?) then
            replaceWordFuel filler fuel (some (filler.getLastD c)) rest'
          else c :: replaceWordFuel filler fuel (some c) rest
        | none => c :: replaceWordFuel filler fuel (some c) rest
      else c :: replaceWordFuel filler fuel (some c) rest

def replaceWordAux (filler : List Char) (prev : Option Char) (cs : List Char) :
    List Char :=
  replaceWordFuel filler cs.length prev cs

/-- The `fillerWords.forEach` loop: each filler is removed globally in turn. -/
def removeFillers (cs : List Char) : List Char :=
  fillerWords.foldl (fun acc f => replaceWordAux f.data none acc) cs

/-- Translation of `replace(/\s+/g, ' ')`: each maximal whitespace run becomes one space. -/
def collapseWsAux : Bool → List Char → List Char
  | _, [] => []
  | prevWs, c :: rest =>
    if isJsSpace c then
      if prevWs then collapseWsAux true rest
      else ' ' :: collapseWsAux true rest
    else c :: collapseWsAux false rest

def collapseWs (cs : List Char) : List Char := collapseWsAux false cs

def isPunctCDEQ (c : Char) : Bool :=
  c = ',' || c = '.' || c = '!' || c = '?'

/-- Translation of `replace(/\s+([,.!?])/g, '$1')`: a maximal whitespace run immediately
followed by one of `, . ! ?` is deleted (the punctuation is kept).  `pending`
buffers the whitespace run seen so far, in reverse. -/
def stripWsBeforePunctAux (pending : List Char) : List Char → List Char
  | [] => pending.reverse
  | c :: rest =>
    if isJsSpace c then stripWsBeforePunctAux (c :: pending) rest
    else if isPunctCDEQ c && !pending.isEmpty then c :: stripWsBeforePunctAux [] rest
    else pending.reverse ++ c :: stripWsBeforePunctAux [] rest

def stripWsBeforePunct (cs : List Char) : List Char := stripWsBeforePunctAux [] cs

/-- JavaScript `String.prototype.trim` (ASCII whitespace). -/
def jsTrim (cs : List Char) : List Char :=
  ((cs.dropWhile isJsSpace).reverse.dropWhile isJsSpace).reverse

/-- Translation of `charAt(0).toUpperCase() + slice(1)` (ASCII). -/
def capitalizeFirst : List Char → List Char
  | [] => []
  | c :: rest => c.toUpper :: rest

/-- The whole per-segment text pipeline of `simpleCleanTranscript`:
lower-case, remove fillers, collapse whitespace, strip whitespace before
punctuation, trim, capitalize the first character. -/
def simpleCleanText (text : String) : String :=
  ⟨capitalizeFirst (jsTrim (stripWsBeforePunct (collapseWs
      (removeFillers (text.data.map Char.toLower)))))⟩

/-- Function `simpleCleanTranscript` (source lines 508–540): the deterministic local
cleanup.  Copies timestamps, keeps `originalText`, cleans the text. -/
def simpleCleanTranscript (segments : List TranscriptSegment) : List CleanedSegment :=
  segments.map fun segment =>
    { start := some (.num segment.start)
      «end» := some (.num segment.«end»)
      originalText := some (.str segment.text)
      cleanedText := some (.str (simpleCleanText segment.text)) }

/-! ### A model of the JavaScript `JSON.parse` builtin

Recursive-descent parser for the JSON grammar, used by
`cleanTranscriptWithGemini`.  Numbers are read into exact rationals.  Fuel
bounds the recursion; `2 * length + 2` is ample since every two units of fuel
consume at least one character. -/

def jsonWsChar (c : Char) : Bool :=
  c = ' ' || c = '\t' || c = '\n' || c = '\r'

def skipJsonWs (cs : List Char) : List Char := cs.dropWhile jsonWsChar

/-- Value of one hexadecimal digit of a `\uXXXX` escape (codes 48–57 are the
decimal digits, 97–102 and 65–70 the lower- and upper-case letters). -/
def hexDigitVal (c : Char) : Option Nat :=
  let n := c.toNat
  if 48 ≤ n && n ≤ 57 then some (n - 48)
  else if 97 ≤ n && n ≤ 102 then some (n - 87)
  else if 65 ≤ n && n ≤ 70 then some (n - 55)
  else none

/-- Body of a JSON string after the opening quote: literal characters, the
escape sequences, terminated by an unescaped quote.  Control characters are a
syntax error, as in `JSON.parse`. -/
def parseStringBody : List Char → Option (List Char × List Char)
  | [] => none
  | '"' :: rest => some ([], rest)
  | '\\' :: esc =>
    match esc with
    | '"' :: r => (parseStringBody r).map fun (s, t) => ('"' :: s, t)
    | '\\' :: r => (parseStringBody r).map fun (s, t) => ('\\' :: s, t)
    | '/' :: r => (parseStringBody r).map fun (s, t) => ('/' :: s, t)
    | 'b' :: r => (parseStringBody r).map fun (s, t) => ('\x08' :: s, t)
    | 'f' :: r => (parseStringBody r).map fun (s, t) => ('\x0c' :: s, t)
    | 'n' :: r => (parseStringBody r).map fun (s, t) => ('\n' :: s, t)
    | 'r' :: r => (parseStringBody r).map fun (s, t) => ('\r' :: s, t)
    | 't' :: r => (parseStringBody r).map fun (s, t) => ('\t' :: s, t)
    | 'u' :: h1 :: h2 :: h3 :: h4 :: r =>
      match hexDigitVal h1, hexDigitVal h2, hexDigitVal h3, hexDigitVal h4 with
      | some a, some b, some c, some d =>
        (parseStringBody r).map fun (s, t) =>
          (Char.ofNat (((a * 16 + b) * 16 + c) * 16 + d) :: s, t)
      | _, _, _, _ => none
    | _ => none
  | c :: rest =>
    if c.toNat < 32 then none
    else (parseStringBody rest).map fun (s, t) => (c :: s, t)

def digitsToNat (ds : List Char) : Nat :=
  ds.foldl (fun a c => a * 10 + (c.toNat - '0'.toNat)) 0

/-- A JSON number literal: `-? (0 | [1-9][0-9]*) (. [0-9]+)? ([eE][+-]?[0-9]+)?`,
valued exactly in `ℚ`.  The value is assembled with natural-number arithmetic
and `mkRat` (numerator `sign * digits`, denominator a power of ten), so the
parsed rational is a normalized literal. -/
def parseNumberTok (cs : List Char) : Option (ℚ × List Char) :=
  let signed : Bool × List Char :=
    match cs with
    | '-' :: r => (true, r)
    | _ => (false, cs)
  let neg := signed.1
  let cs1 := signed.2
  let intPart : Option (Nat × List Char) :=
    match cs1 with
    | '0' :: r => some (0, r)
    | c :: r =>
      if c.isDigit then
        some (digitsToNat (c :: r.takeWhile Char.isDigit), r.dropWhile Char.isDigit)
      else none
    | [] => none
  match intPart with
  | none => none
  | some (n, rest1) =>
    let fracPart : Option ((Nat × Nat) × List Char) :=
      match rest1 with
      | '.' :: r =>
        let ds := r.takeWhile Char.isDigit
        if ds.isEmpty then none
        else some ((digitsToNat ds, ds.length), r.dropWhile Char.isDigit)
      | _ => some ((0, 0), rest1)
    match fracPart with
    | none => none
    | some ((fracNat, fracLen), rest2) =>
      let expPart : Option ((Bool × Nat) × List Char) :=
        match rest2 with
        | e :: r =>
          if e = 'e' || e = 'E' then
            let esigned : Bool × List Char :=
              match r with
              | '+' :: r2 => (false, r2)
              | '-' :: r2 => (true, r2)
              | _ => (false, r)
            let ds := esigned.2.takeWhile Char.isDigit
            if ds.isEmpty then none
            else some ((esigned.1, digitsToNat ds), esigned.2.dropWhile Char.isDigit)
          else some ((false, 0), rest2)
        | [] => some ((false, 0), rest2)
      match expPart with
      | none => none
      | some ((expNeg, expNat), rest3) =>
        let mantissa : Nat := n * 10 ^ fracLen + fracNat
        let num : Nat := if expNeg then mantissa else mantissa * 10 ^ expNat
        let den : Nat := if expNeg then 10 ^ fracLen * 10 ^ expNat else 10 ^ fracLen
        let mag : ℚ := mkRat (if neg then -(num : ℤ) else (num : ℤ)) den
        some (mag, rest3)

mutual

/-- One JSON value, leading whitespace allowed. -/
def parseJsonVal : Nat → List Char → Option (Json × List Char)
  | 0, _ => none
  | fuel + 1, cs =>
    match skipJsonWs cs with
    | [] => none
    | c :: rest =>
      if c = 'n' then
        match rest with
        | 'u' :: 'l' :: 'l' :: r => some (.null, r)
        | _ => none
      else if c = 't' then
        match rest with
        | 'r' :: 'u' :: 'e' :: r => some (.bool true, r)
        | _ => none
      else if c = 'f' then
        match rest with
        | 'a' :: 'l' :: 's' :: 'e' :: r => some (.bool false, r)
        | _ => none
      else if c = '"' then
        match parseStringBody rest with
        | some (s, r) => some (.str ⟨s⟩, r)
        | none => none
      else if c = '[' then parseJsonArrayRest fuel rest
      else if c = '\x7b' then parseJsonObjRest fuel rest
      else
        match parseNumberTok (c :: rest) with
        | some (q, r) => some (.num q, r)
        | none => none

/-- The elements of an array, after the opening bracket. -/
def parseJsonArrayRest : Nat → List Char → Option (Json × List Char)
  | 0, _ => none
  | fuel + 1, cs =>
    match skipJsonWs cs with
    | ']' :: r => some (.arr [], r)
    | _ =>
      match parseJsonVal fuel cs with
      | some (v, r) => parseJsonArrayMore fuel [v] r
      | none => none

def parseJsonArrayMore : Nat → List Json → List Char → Option (Json × List Char)
  | 0, _, _ => none
  | fuel + 1, acc, cs =>
    match skipJsonWs cs with
    | ',' :: r =>
      match parseJsonVal fuel r with
      | some (v, r2) => parseJsonArrayMore fuel (v :: acc) r2
      | none => none
    | ']' :: r => some (.arr acc.reverse, r)
    | _ => none

/-- The members of an object, after the opening brace. -/
def parseJsonObjRest : Nat → List Char → Option (Json × List Char)
  | 0, _ => none
  | fuel + 1, cs =>
    match skipJsonWs cs with
    | '\x7d' :: r => some (.obj [], r)
    | '"' :: r =>
      match parseStringBody r with
      | some (k, r2) =>
        match skipJsonWs r2 with
        | ':' :: r3 =>
          match parseJsonVal fuel r3 with
          | some (v, r4) => parseJsonObjMore fuel [(⟨k⟩, v)] r4
          | none => none
        | _ => none
      | none => none
    | _ => none

def parseJsonObjMore : Nat → List (String × Json) → List Char → Option (Json × List Char)
  | 0, _, _ => none
  | fuel + 1, acc, cs =>
    match skipJsonWs cs with
    | ',' :: r =>
      match skipJsonWs r with
      | '"' :: r1 =>
        match parseStringBody r1 with
        | some (k, r2) =>
          match skipJsonWs r2 with
          | ':' :: r3 =>
            match parseJsonVal fuel r3 with
            | some (v, r4) => parseJsonObjMore fuel ((⟨k⟩, v) :: acc) r4
            | none => none
          | _ => none
        | none => none
      | _ => none
    | '\x7d' :: r => some (.obj acc.reverse, r)
    | _ => none

end

/-- Model of `JSON.parse`: the whole string must be one JSON value padded by
whitespace, otherwise a `SyntaxError` is thrown (`none` here). -/
def JSON.parse (s : String) : Option Json :=
  match parseJsonVal (2 * s.data.length + 2) s.data with
  | some (v, rest) => if (skipJsonWs rest).isEmpty then some v else none
  | none => none

/-! ### `cleanTranscriptWithGemini` — the Tier 1 AI cleanup attempt -/

/-- Translation of `geminiResponse.match` with pattern first-bracket-to-last-bracket (source line 482): the leftmost,
greedy match runs from the first `[` in the text to the last `]` of the whole
text, provided that `]` comes after the `[`.  Helper: keep everything up to
and including the last `]`, or `none` if there is no `]`. -/
def takeThroughLastRB (cs : List Char) : Option (List Char) :=
  match cs.reverse.dropWhile (fun c => c ≠ ']') with
  | [] => none
  | c :: rest => some ((c :: rest).reverse)

/-- The matched substring of `/\[[\s\S]*\]/`, if any. -/
def jsonArrayMatch (cs : List Char) : Option (List Char) :=
  match cs.dropWhile (fun c => c ≠ '[') with
  | [] => none
  | _ :: rest =>
    match takeThroughLastRB rest with
    | none => none
    | some body => some ('[' :: body)

/-- JavaScript property read `segment.key` on a parsed JSON value: a read on
`null` throws a `TypeError` (`Except.error`); on any non-object it yields
`undefined` (`none`); on an object it yields the last binding of the key. -/
def readField (j : Json) (key : String) : Except Unit (Option Json) :=
  match j with
  | .null => .error ()
  | .obj fields => .ok ((fields.reverse.find? (fun kv => kv.1 = key)).map (·.2))
  | _ => .ok none

/-- The `cleanedSegments.map(segment => (\x7b start, end, cleanedText \x7d))`
projection on one parsed element (source lines 489–493). -/
def mapParsedSegment (j : Json) : Except Unit CleanedSegment :=
  match readField j "start" with
  | .error e => .error e
  | .ok s =>
    match readField j "end" with
    | .error e => .error e
    | .ok e =>
      match readField j "cleanedText" with
      | .error er => .error er
      | .ok ct => .ok { start := s, «end» := e, originalText := none, cleanedText := ct }

def mapParsedSegments : List Json → Except Unit (List CleanedSegment)
  | [] => .ok []
  | j :: js =>
    match mapParsedSegment j with
    | .error e => .error e
    | .ok c =>
      match mapParsedSegments js with
      | .error e => .error e
      | .ok cs => .ok (c :: cs)

/-- Outcome of the awaited Gemini HTTP call: either the call (or the
`response.data.candidates[0].content.parts[0].text` access) throws, or it
yields the response text. -/
inductive GeminiOutcome where
  | fail (msg : String)
  | ok (responseText : String)

/-- The `try` block of `cleanTranscriptWithGemini` (source lines 413–493):
await the call, extract the bracketed substring, `JSON.parse` it, and project
each element to a `CleanedSegment`.  Any thrown error is the `Except.error`. -/
def cleanTranscriptWithGeminiTry (_segments : List TranscriptSegment)
    (outcome : GeminiOutcome) : Except String (List CleanedSegment) :=
  match outcome with
  | .fail msg => .error msg
  | .ok responseText =>
    match jsonArrayMatch responseText.data with
    | none => .error "Could not extract JSON from Gemini response"
    | some matched =>
      match JSON.parse ⟨matched⟩ with
      | none => .error "SyntaxError: JSON.parse"
      | some json =>
        match json with
        | .arr elems =>
          match mapParsedSegments elems with
          | .ok cs => .ok cs
          | .error _ => .error "TypeError: cannot read properties of null"
        | _ => .error "TypeError: map is not a function"

/-- The catch block's per-segment fallback (source lines 499–503): timestamps
copied, original text as `cleanedText`, no `originalText` field. -/
def geminiFallbackSeg (seg : TranscriptSegment) : CleanedSegment :=
  { start := some (.num seg.start)
    «end» := some (.num seg.«end»)
    originalText := none
    cleanedText := some (.str seg.text) }

/-- Function `cleanTranscriptWithGemini` (source lines 412–505): the whole body sits in
one `try/catch`; the catch returns the original segments as cleaned, and the
function therefore never rejects. -/
def cleanTranscriptWithGemini (segments : List TranscriptSegment)
    (outcome : GeminiOutcome) : Except String (List CleanedSegment) :=
  match cleanTranscriptWithGeminiTry segments outcome with
  | .ok cs => .ok cs
  | .error _ => .ok (segments.map geminiFallbackSeg)

/-- The cleanup step of `processYouTubeTranscript` (source lines 576–582):
take the Gemini result, and on a thrown error fall back to
`simpleCleanTranscript`. -/
def cleanupStage (segments : List TranscriptSegment) (outcome : GeminiOutcome) :
    List CleanedSegment :=
  match cleanTranscriptWithGemini segments outcome with
  | .ok cs => cs
  | .error _ => simpleCleanTranscript segments

/-! ### Audio acquisition, transcription, and the main pipeline -/

/-- Number of milliseconds passed to `setTimeout` in `downloadAudioToBuffer`
(source line 375). -/
def downloadTimeoutMs : Nat := 90000

/-- What the ytdl stream eventually does: emit all its chunks and end, or emit
an error. -/
inductive StreamEvent where
  | ended (bytes : List UInt8)
  | errored (msg : String)

/-- Function `downloadAudioToBuffer` (source lines 342–377): the promise
settles with the first of the stream outcome and the 90-second timer.
`eventTimeMs` is when the stream event fires; at or after the timer the
promise is already rejected with the timeout error. -/
def downloadAudioToBuffer (event : StreamEvent) (eventTimeMs : Nat) :
    Except String (List UInt8) :=
  if eventTimeMs < downloadTimeoutMs then
    match event with
    | .ended bytes => .ok bytes
    | .errored msg => .error msg
  else .error "Audio download timeout after 90 seconds"

/-- One utterance of the Deepgram response (`start`, `end`, `transcript`). -/
structure Utterance where
  start : ℚ
  «end» : ℚ
  transcript : String

structure DeepgramResults where
  utterances : Option (List Utterance)

structure DeepgramResponse where
  results : DeepgramResults

/-- Outcome of the awaited Deepgram HTTP call. -/
inductive TranscribeOutcome where
  | fail (msg : String)
  | ok (response : DeepgramResponse)

/-- Function `transcribeWithDeepgram` (source lines 380–409): returns the
response data, or rethrows any error wrapped in the fixed prefix. -/
def transcribeWithDeepgram (_audioBuffer : List UInt8)
    (outcome : TranscribeOutcome) : Except String DeepgramResponse :=
  match outcome with
  | .fail msg => .error ("Deepgram transcription failed: " ++ msg)
  | .ok resp => .ok resp

/-- The `data` object of a success result (`audioSize` is kept as the raw
byte count; the source formats it as a megabyte string for display). -/
structure ProcessData where
  videoUrl : String
  cleanedSegments : List CleanedSegment
  totalDuration : ℚ
  segmentCount : Nat
  audioSizeBytes : Nat

/-- Return value of `processYouTubeTranscript` (the failure also carries a
`requestId`, a random tag with no logic attached, not modelled). -/
inductive ProcessResult where
  | success (data : ProcessData)
  | failure (error : String)

/-- Function `processYouTubeTranscript` (source lines 543–605): download,
check for an empty buffer, transcribe, check for utterances, clean with the
Gemini/simple two-tier step, and assemble the response; every thrown error is
caught and becomes a failure result carrying its message. -/
def processYouTubeTranscript (youtubeUrl : String) (event : StreamEvent)
    (eventTimeMs : Nat) (tr : TranscribeOutcome) (gm : GeminiOutcome) :
    ProcessResult :=
  match downloadAudioToBuffer event eventTimeMs with
  | .error msg => .failure msg
  | .ok audioBuffer =>
    if audioBuffer.length = 0 then .failure "Downloaded audio buffer is empty"
    else
      match transcribeWithDeepgram audioBuffer tr with
      | .error msg => .failure msg
      | .ok transcriptionResult =>
        match transcriptionResult.results.utterances with
        | none => .failure "No utterances detected in the transcript."
        | some utterances =>
          if utterances.length = 0 then
            .failure "No utterances detected in the transcript."
          else
            let segments : List TranscriptSegment :=
              utterances.map fun u => ⟨u.start, u.«end», u.transcript⟩
            let cleanedSegments := cleanupStage segments gm
            .success
              { videoUrl := youtubeUrl
                cleanedSegments := cleanedSegments
                totalDuration :=
                  if segments.length > 0 then
                    match segments.getLast? with
                    | some s => s.«end»
                    | none => 0
                  else 0
                segmentCount := segments.length
                audioSizeBytes := audioBuffer.length }

/-! ### The GET handler -/

/-- The alternatives of the scheme group `(https?:\/\/)?` of the YouTube URL
regex (source line 623). -/
def schemeAlts : List String := ["http://", "https://", ""]

/-- The alternatives of the `(www\.)?` group. -/
def wwwAlts : List String := ["www.", ""]

/-- The alternatives of the host group
`(youtube\.com\/(watch\?v=|embed\/)|youtu\.be\/)`. -/
def hostAlts : List String :=
  ["youtube.com/watch?v=", "youtube.com/embed/", "youtu.be/"]

/-- Case-sensitive literal match of `pat` against a prefix of the input,
returning the remainder on success. -/
def dropLit : List Char → List Char → Option (List Char)
  | [], cs => some cs
  | _ :: _, [] => none
  | p :: ps, c :: cs => if c = p then dropLit ps cs else none

/-- Test of `/^(https?:\/\/)?(www\.)?(youtube\.com\/(watch\?v=|embed\/)|youtu\.be\/)[\w-]+/`
on a character list: some choice of the optional groups is a literal prefix
followed by at least one `[\w-]` character.  The regex is anchored only at the
start, so anything may follow. -/
def youtubeRegexTestL (cs : List Char) : Bool :=
  schemeAlts.any fun a => wwwAlts.any fun b => hostAlts.any fun c =>
    match dropLit (a ++ b ++ c).data cs with
    | some (ch :: _) => isWordChar ch || ch = '-'
    | _ => false

/-- `youtubeRegex.test(youtubeUrl)` (source lines 623–624). -/
def youtubeRegexTest (s : String) : Bool := youtubeRegexTestL s.data

/-- The JSON body and status produced by the handler's `NextResponse.json`
calls, flattened to the fields the bodies carry. -/
structure ApiResponse where
  status : Nat
  success : Bool
  error : Option String
  data : Option ProcessData

/-- Mapping of the pipeline result to the final response
(source lines 651–655): 200 on success, 500 on failure. -/
def respondWithResult (result : ProcessResult) : ApiResponse :=
  match result with
  | .success d => { status := 200, success := true, error := none, data := some d }
  | .failure e => { status := 500, success := false, error := some e, data := none }

/-- Function `GET` (source lines 608–668).  `url?` is
`searchParams.get('url')` (`none` when the parameter is absent; the empty
string is falsy in the `!youtubeUrl` test, hence also the missing-URL
response).  `hasDeepgramKey`/`hasGeminiKey` model the presence of the two
environment variables, and `proc` is the pipeline the handler awaits on the
validated URL. -/
def GET (url? : Option String) (hasDeepgramKey hasGeminiKey : Bool)
    (proc : String → ProcessResult) : ApiResponse :=
  match url? with
  | none =>
    { status := 400, success := false
      error := some "YouTube URL is required. Use ?url=<youtube_url>", data := none }
  | some youtubeUrl =>
    if youtubeUrl = "" then
      { status := 400, success := false
        error := some "YouTube URL is required. Use ?url=<youtube_url>", data := none }
    else if !youtubeRegexTest youtubeUrl then
      { status := 400, success := false
        error := some "Invalid YouTube URL format", data := none }
    else if !hasDeepgramKey then
      { status := 500, success := false
        error := some "DEEPGRAM_API_KEY environment variable is not set", data := none }
    else if !hasGeminiKey then
      { status := 500, success := false
        error := some "GEMINI_API_KEY environment variable is not set", data := none }
    else respondWithResult (proc youtubeUrl)

/-! ### Decidable projections used by the concrete theorems

The cleaned segments hold `Option Json` fields; these helpers project the
cases the theorems compare, so that closed statements can be settled by
`decide` without decidable equality on `Json`. -/

/-- The rational held by an optional JSON field, when it is a number. -/
def numVal? : Option Json → Option ℚ
  | some (.num q) => some q
  | _ => none

/-- The string held by an optional JSON field, when it is a string. -/
def strVal? : Option Json → Option String
  | some (.str s) => some s
  | _ => none

def csStart? (cs : List CleanedSegment) (i : Nat) : Option ℚ :=
  (cs[i]?).bind fun c => numVal? c.start

def csEnd? (cs : List CleanedSegment) (i : Nat) : Option ℚ :=
  (cs[i]?).bind fun c => numVal? c.«end»

def csCleanedStr? (cs : List CleanedSegment) (i : Nat) : Option String :=
  (cs[i]?).bind fun c => strVal? c.cleanedText

def csOrigStr? (cs : List CleanedSegment) (i : Nat) : Option String :=
  (cs[i]?).bind fun c => strVal? c.originalText

/-- Raw timestamp projections, for comparison with the cleaned output. -/
def rawStart? (segs : List TranscriptSegment) (i : Nat) : Option ℚ :=
  (segs[i]?).map (·.start)

def rawEnd? (segs : List TranscriptSegment) (i : Nat) : Option ℚ :=
  (segs[i]?).map (·.«end»)

/-- Whether the `try` block of `cleanTranscriptWithGemini` succeeded (Tier 1
accepted the AI response). -/
def trySucceeded (segs : List TranscriptSegment) (oc : GeminiOutcome) : Bool :=
  match cleanTranscriptWithGeminiTry segs oc with
  | .ok _ => true
  | .error _ => false

def resultIsSuccess : ProcessResult → Bool
  | .success _ => true
  | .failure _ => false

def resultCleanedCount? : ProcessResult → Option Nat
  | .success d => some d.cleanedSegments.length
  | .failure _ => none

def resultTotalDuration? : ProcessResult → Option ℚ
  | .success d => some d.totalDuration
  | .failure _ => none

def resultSegmentCount? : ProcessResult → Option Nat
  | .success d => some d.segmentCount
  | .failure _ => none

def resultCleanedStr? (r : ProcessResult) (i : Nat) : Option String :=
  match r with
  | .success d => csCleanedStr? d.cleanedSegments i
  | .failure _ => none

/-! ### Concrete Gemini responses and pipeline runs used as test inputs -/

/-- An AI response with two segments whose timestamps differ from the raw
input and whose count differs from a one-segment input. -/
def geminiTwoSegResponse : String :=
  "[\x7b\"start\":5,\"end\":6,\"cleanedText\":\"a\"\x7d,\x7b\"start\":7,\"end\":8,\"cleanedText\":\"b\"\x7d]"

/-- The prose-wrapped response of property P7: one JSON array surrounded by
text, with no later `]`. -/
def geminiProseResponse : String :=
  "Here is the result:\n[\x7b\"id\":1,\"start\":0,\"end\":2,\"cleanedText\":\"hi\"\x7d]\nHope this helps"

/-- A prose-wrapped response with a stray `]` after the array: a balanced
scan would find the array, the greedy first-to-last match does not. -/
def geminiGreedyResponse : String :=
  "Sure!\n[\x7b\"start\":1\x7d]\ntail ]"

/-- A full pipeline run in which the AI answers with the empty array: the
success result then carries no cleaned segments while duration and count
come from the one raw segment. -/
def emptyArrayPipelineRun : ProcessResult :=
  processYouTubeTranscript "u" (.ended [0]) 0 (.ok ⟨⟨some [⟨0, 7, "hi"⟩]⟩⟩) (.ok "[]")

/-! ### Helper lemmas -/

theorem dropLit_append :
    ∀ (pat cs t r : List Char), dropLit pat cs = some r →
      dropLit pat (cs ++ t) = some (r ++ t) := by
  intro pat
  induction pat with
  | nil => intro cs t r h; cases h; rfl
  | cons p ps ih =>
    intro cs t r h
    cases cs with
    | nil => cases h
    | cons c cs' =>
      by_cases hc : c = p
      · simp only [dropLit, if_pos hc] at h
        simp only [List.cons_append, dropLit, if_pos hc]
        exact ih cs' t r h
      · simp only [dropLit, if_neg hc] at h
        cases h

theorem youtubeRegexTestL_append (cs t : List Char)
    (h : youtubeRegexTestL cs = true) : youtubeRegexTestL (cs ++ t) = true := by
  unfold youtubeRegexTestL at h ⊢
  rw [List.any_eq_true] at h ⊢
  obtain ⟨a, ha, h⟩ := h
  refine ⟨a, ha, ?_⟩
  rw [List.any_eq_true] at h ⊢
  obtain ⟨b, hb, h⟩ := h
  refine ⟨b, hb, ?_⟩
  rw [List.any_eq_true] at h ⊢
  obtain ⟨c, hc, h⟩ := h
  refine ⟨c, hc, ?_⟩
  cases hd : dropLit (a ++ b ++ c).data cs with
  | none => rw [hd] at h; exact absurd h (by simp)
  | some r =>
    rw [hd] at h
    cases r with
    | nil => exact absurd h (by simp)
    | cons ch rest =>
      rw [dropLit_append _ _ t _ hd]
      exact h

theorem dropWhile_ne_append (a : Char) :
    ∀ (l r : List Char), a ∉ l →
      (l ++ a :: r).dropWhile (fun c => c ≠ a) = a :: r := by
  intro l
  induction l with
  | nil =>
    intro r _
    simp [List.dropWhile_cons]
  | cons x xs ih =>
    intro r h
    have hx : x ≠ a := fun he => h (he ▸ List.mem_cons_self x xs)
    simp only [List.cons_append, List.dropWhile_cons, decide_eq_true hx, if_true]
    exact ih r (fun hm => h (List.mem_cons_of_mem _ hm))

theorem takeThroughLastRB_eq (mid post : List Char) (h2 : ']' ∉ post) :
    takeThroughLastRB (mid ++ ']' :: post) = some (mid ++ [']']) := by
  unfold takeThroughLastRB
  have hrev : (mid ++ ']' :: post).reverse = post.reverse ++ ']' :: mid.reverse := by
    simp [List.reverse_append]
  rw [hrev, dropWhile_ne_append ']' post.reverse mid.reverse (by simpa using h2)]
  simp

/-- The greedy regex match of `/\[[\s\S]*\]/` on a text with no `[` before
the shown one and no `]` after the shown one runs from that `[` to that `]`,
whatever lies in between. -/
theorem jsonArrayMatch_first_to_last (pre mid post : List Char)
    (h1 : '[' ∉ pre) (h2 : ']' ∉ post) :
    jsonArrayMatch (pre ++ '[' :: (mid ++ ']' :: post)) =
      some ('[' :: (mid ++ [']'])) := by
  unfold jsonArrayMatch
  rw [dropWhile_ne_append '[' pre _ h1]
  simp [takeThroughLastRB_eq mid post h2]

theorem cleanGemini_isOk (segs : List TranscriptSegment) (oc : GeminiOutcome) :
    ∃ cs, cleanTranscriptWithGemini segs oc = .ok cs := by
  unfold cleanTranscriptWithGemini
  cases h : cleanTranscriptWithGeminiTry segs oc with
  | ok cs => exact ⟨cs, rfl⟩
  | error e => exact ⟨segs.map geminiFallbackSeg, rfl⟩

theorem cleanupStage_of_tryError (segs : List TranscriptSegment)
    (oc : GeminiOutcome) (e : String)
    (he : cleanTranscriptWithGeminiTry segs oc = .error e) :
    cleanupStage segs oc = segs.map geminiFallbackSeg := by
  simp [cleanupStage, cleanTranscriptWithGemini, he]

/-! ### Claims -/

/-- C1, counterexample: with one raw segment and the AI answering the empty
array `[]` — one of the failure modes the claim lists — the `try` block of
`cleanTranscriptWithGemini` succeeds (the parsed array is accepted as is) and
the cleanup stage returns 0 segments, not the input length 1. -/
theorem c1_counterexample_empty_array :
    trySucceeded [⟨0, 1, "hello"⟩] (.ok "[]") = true ∧
    (cleanupStage [⟨0, 1, "hello"⟩] (.ok "[]")).length = 0 ∧
    ([(⟨0, 1, "hello"⟩ : TranscriptSegment)]).length = 1 := by
  decide

/-- C1, amended: the cleanup stage never raises (the Gemini function always
returns `ok`), and whenever the `try` block throws — network error, missing
array, parse error, null elements — the output has the input's length; but a
response that parses to a JSON array of any length is accepted as is, so an
empty or different-length array yields that length instead. -/
theorem c1_fallback_totality_amended :
    (∀ (segs : List TranscriptSegment) (oc : GeminiOutcome),
        ∃ cs, cleanTranscriptWithGemini segs oc = .ok cs) ∧
    (∀ (segs : List TranscriptSegment) (oc : GeminiOutcome) (e : String),
        cleanTranscriptWithGeminiTry segs oc = .error e →
        (cleanupStage segs oc).length = segs.length) := by
  constructor
  · exact cleanGemini_isOk
  · intro segs oc e he
    rw [cleanupStage_of_tryError segs oc e he, List.length_map]

theorem c1_fallback_totality_amended_witness :
    (cleanupStage [⟨0, 1, "x"⟩] (.fail "network error")).length =
      ([(⟨0, 1, "x"⟩ : TranscriptSegment)]).length :=
  c1_fallback_totality_amended.2 [⟨0, 1, "x"⟩] (.fail "network error")
    "network error" rfl

/-- C2, counterexample: on the Tier 1 success path the output is built from
the parsed AI response, not the raw segments: for one raw segment starting at
0 and an AI response holding two segments starting at 5 and 7, the cleanup
stage returns 2 segments and the first start is 5, not 0. -/
theorem c2_counterexample_ai_path :
    trySucceeded [⟨0, 1, "hi"⟩] (.ok geminiTwoSegResponse) = true ∧
    (cleanupStage [⟨0, 1, "hi"⟩] (.ok geminiTwoSegResponse)).length = 2 ∧
    ([(⟨0, 1, "hi"⟩ : TranscriptSegment)]).length = 1 ∧
    csStart? (cleanupStage [⟨0, 1, "hi"⟩] (.ok geminiTwoSegResponse)) 0 = some 5 ∧
    rawStart? [⟨0, 1, "hi"⟩] 0 = some 0 := by
  decide

/-- C2, amended: the Tier 2 path and the Tier 1 internal fallback return a
sequence of the input's length whose timestamps equal the input's at every
index; on the Tier 1 success path the output is exactly the projection of the
parsed response array, whose length is that array's — length and timestamps
then come from the AI response and need not match the input. -/
theorem c2_preservation_amended :
    (∀ segs, (simpleCleanTranscript segs).length = segs.length) ∧
    (∀ segs i, csStart? (simpleCleanTranscript segs) i = rawStart? segs i ∧
               csEnd? (simpleCleanTranscript segs) i = rawEnd? segs i) ∧
    (∀ (segs : List TranscriptSegment) (oc : GeminiOutcome) (e : String),
        cleanTranscriptWithGeminiTry segs oc = .error e →
        (cleanupStage segs oc).length = segs.length ∧
        ∀ i, csStart? (cleanupStage segs oc) i = rawStart? segs i ∧
             csEnd? (cleanupStage segs oc) i = rawEnd? segs i) ∧
    (∀ (segs : List TranscriptSegment) (oc : GeminiOutcome) cs,
        cleanTranscriptWithGeminiTry segs oc = .ok cs →
        cleanupStage segs oc = cs) ∧
    (∀ elems cs, mapParsedSegments elems = .ok cs → cs.length = elems.length) := by
  refine ⟨?_, ?_, ?_, ?_, ?_⟩
  · intro segs
    exact List.length_map _ _
  · intro segs i
    constructor
    · simp only [csStart?, rawStart?, simpleCleanTranscript, List.getElem?_map]
      cases segs[i]? <;> simp [numVal?]
    · simp only [csEnd?, rawEnd?, simpleCleanTranscript, List.getElem?_map]
      cases segs[i]? <;> simp [numVal?]
  · intro segs oc e he
    rw [cleanupStage_of_tryError segs oc e he]
    refine ⟨List.length_map _ _, ?_⟩
    intro i
    constructor
    · simp only [csStart?, rawStart?, geminiFallbackSeg, List.getElem?_map]
      cases segs[i]? <;> simp [numVal?, geminiFallbackSeg]
    · simp only [csEnd?, rawEnd?, geminiFallbackSeg, List.getElem?_map]
      cases segs[i]? <;> simp [numVal?, geminiFallbackSeg]
  · intro segs oc cs h
    simp [cleanupStage, cleanTranscriptWithGemini, h]
  · intro elems
    induction elems with
    | nil => intro cs h; cases h; rfl
    | cons j js ih =>
      intro cs h
      unfold mapParsedSegments at h
      cases h1 : mapParsedSegment j with
      | error e => rw [h1] at h; cases h
      | ok c =>
        rw [h1] at h
        cases h2 : mapParsedSegments js with
        | error e => rw [h2] at h; cases h
        | ok cs' =>
          rw [h2] at h
          cases h
          simp [ih cs' h2]

theorem c2_preservation_amended_witness :
    (cleanupStage [⟨2, 3, "y"⟩, ⟨3, 4, "z"⟩] (.fail "down")).length =
      ([⟨2, 3, "y"⟩, ⟨3, 4, "z"⟩] : List TranscriptSegment).length ∧
    csStart? (cleanupStage [⟨2, 3, "y"⟩, ⟨3, 4, "z"⟩] (.fail "down")) 1 =
      rawStart? [⟨2, 3, "y"⟩, ⟨3, 4, "z"⟩] 1 :=
  ⟨(c2_preservation_amended.2.2.1 [⟨2, 3, "y"⟩, ⟨3, 4, "z"⟩] (.fail "down")
      "down" rfl).1,
   ((c2_preservation_amended.2.2.1 [⟨2, 3, "y"⟩, ⟨3, 4, "z"⟩] (.fail "down")
      "down" rfl).2 1).1⟩

/-- C3, confirmed: the cleanup step of `processYouTubeTranscript` always
receives the `ok` value of `cleanTranscriptWithGemini` — the function absorbs
its own errors, so the `catch` branch calling `simpleCleanTranscript` is
unreachable — and whenever the AI attempt fails internally, the output is the
catch block of `cleanTranscriptWithGemini` itself: every segment's original
text as `cleanedText`, timestamps copied, and no `originalText` field (see
`geminiFallbackSeg`). -/
theorem c3_gemini_never_throws :
    ∀ (segs : List TranscriptSegment) (oc : GeminiOutcome),
      cleanTranscriptWithGemini segs oc = .ok (cleanupStage segs oc) ∧
      (∀ e, cleanTranscriptWithGeminiTry segs oc = .error e →
        cleanupStage segs oc = segs.map geminiFallbackSeg) := by
  intro segs oc
  constructor
  · unfold cleanupStage
    cases h : cleanTranscriptWithGemini segs oc with
    | ok cs => rfl
    | error e =>
      obtain ⟨cs, hcs⟩ := cleanGemini_isOk segs oc
      rw [h] at hcs
      cases hcs
  · intro e he
    exact cleanupStage_of_tryError segs oc e he

theorem c3_gemini_never_throws_witness :
    cleanTranscriptWithGemini [⟨0, 1, "hello"⟩] (.fail "boom") =
      .ok (cleanupStage [⟨0, 1, "hello"⟩] (.fail "boom")) ∧
    cleanupStage [⟨0, 1, "hello"⟩] (.fail "boom") =
      ([⟨0, 1, "hello"⟩] : List TranscriptSegment).map geminiFallbackSeg :=
  ⟨(c3_gemini_never_throws [⟨0, 1, "hello"⟩] (.fail "boom")).1,
   (c3_gemini_never_throws [⟨0, 1, "hello"⟩] (.fail "boom")).2 "boom" rfl⟩

/-- C4, counterexample: the Tier 2 cleanup of
`"um so like I think, you know, it works"` is not `"I think, it works"`:
removing `"you know"` between two commas leaves `", ,"`, which the
space-before-punctuation rule turns into a double comma. -/
theorem c4_counterexample_double_comma :
    csCleanedStr? (simpleCleanTranscript
        [⟨0, 1, "um so like I think, you know, it works"⟩]) 0 ≠
      some "I think, it works" := by
  decide

/-- C4, amended: the Tier 2 cleanup of the quoted segment yields
`"I think,, it works"`: the fillers um/so/like/you-know are removed as
standalone words (a further filler-removal pass leaves the text unchanged),
whitespace is single-spaced, no whitespace precedes punctuation, the first
letter is capitalized, and the original text is kept — but the comma pair
around the removed `"you know"` collapses to `",,"`. -/
theorem c4_tier2_cleaning_amended :
    csCleanedStr? (simpleCleanTranscript
        [⟨0, 1, "um so like I think, you know, it works"⟩]) 0 =
      some "I think,, it works" ∧
    csOrigStr? (simpleCleanTranscript
        [⟨0, 1, "um so like I think, you know, it works"⟩]) 0 =
      some "um so like I think, you know, it works" ∧
    csStart? (simpleCleanTranscript
        [⟨0, 1, "um so like I think, you know, it works"⟩]) 0 = some 0 ∧
    csEnd? (simpleCleanTranscript
        [⟨0, 1, "um so like I think, you know, it works"⟩]) 0 = some 1 ∧
    removeFillers "I think,, it works".data = "I think,, it works".data ∧
    collapseWs "I think,, it works".data = "I think,, it works".data ∧
    stripWsBeforePunct "I think,, it works".data = "I think,, it works".data ∧
    jsTrim "I think,, it works".data = "I think,, it works".data ∧
    capitalizeFirst "I think,, it works".data = "I think,, it works".data := by
  decide

/-- C5, counterexample: for a response with a stray `]` after the array, the
extraction is not the balanced first array `[...]` — it runs to the last `]`
of the text, the parse of that larger substring fails, and Tier 1 is
abandoned, where the claim says exactly the bracketed array is parsed. -/
theorem c5_counterexample_greedy_match :
    jsonArrayMatch geminiGreedyResponse.data ≠ some "[\x7b\"start\":1\x7d]".data ∧
    jsonArrayMatch geminiGreedyResponse.data =
      some "[\x7b\"start\":1\x7d]\ntail ]".data ∧
    trySucceeded [⟨0, 1, "raw"⟩] (.ok geminiGreedyResponse) = false := by
  decide

/-- C5, amended: the extraction takes the substring from the first `[` of the
response to the last `]` of the whole response (greedy regex), and
`JSON.parse` is applied to exactly that substring; when the response contains
one bracketed array and no later `]` — as in the prose example of P7 — this
is the array itself and Tier 1 parses it. -/
theorem c5_extraction_amended :
    (∀ (pre mid post : List Char), '[' ∉ pre → ']' ∉ post →
        jsonArrayMatch (pre ++ '[' :: (mid ++ ']' :: post)) =
          some ('[' :: (mid ++ [']']))) ∧
    trySucceeded [⟨0, 1, "raw"⟩] (.ok geminiProseResponse) = true ∧
    (cleanupStage [⟨0, 1, "raw"⟩] (.ok geminiProseResponse)).length = 1 ∧
    csStart? (cleanupStage [⟨0, 1, "raw"⟩] (.ok geminiProseResponse)) 0 = some 0 ∧
    csEnd? (cleanupStage [⟨0, 1, "raw"⟩] (.ok geminiProseResponse)) 0 = some 2 ∧
    csCleanedStr? (cleanupStage [⟨0, 1, "raw"⟩] (.ok geminiProseResponse)) 0 =
      some "hi" := by
  refine ⟨jsonArrayMatch_first_to_last, ?_, ?_, ?_, ?_, ?_⟩ <;> decide

theorem c5_extraction_amended_witness :
    jsonArrayMatch ("Result: ".data ++ '[' :: ("1, 2".data ++ ']' :: " done".data)) =
      some ('[' :: ("1, 2".data ++ [']'])) :=
  c5_extraction_amended.1 "Result: ".data "1, 2".data " done".data
    (by decide) (by decide)

/-- C6, counterexample: a success result whose cleaned segment list is empty
(the AI answered `[]`) still carries `totalDuration = 7` and
`segmentCount = 1`, because both are computed from the raw segments — so read
against the assembled `cleanedSegments`, an empty list does not give duration
0 and the count does not equal its length. -/
theorem c6_counterexample_empty_cleaned :
    resultIsSuccess emptyArrayPipelineRun = true ∧
    resultCleanedCount? emptyArrayPipelineRun = some 0 ∧
    resultTotalDuration? emptyArrayPipelineRun = some 7 ∧
    resultTotalDuration? emptyArrayPipelineRun ≠ some 0 ∧
    resultSegmentCount? emptyArrayPipelineRun = some 1 := by
  decide

/-- C6, amended: in every success result, `totalDuration` and `segmentCount`
are computed from the raw segment list entering cleanup — the last raw
utterance's end and the raw count (the raw list is never empty in a success
result, so the 0 branch of the ternary is dead there); they agree with the
assembled `cleanedSegments` exactly when cleanup preserved count and
timestamps, which the Tier 1 success path need not do. -/
theorem c6_duration_amended :
    ∀ (url : String) (bytes : List UInt8) (t : Nat) (us : List Utterance)
      (gm : GeminiOutcome), t < downloadTimeoutMs → bytes ≠ [] → us ≠ [] →
      processYouTubeTranscript url (.ended bytes) t (.ok ⟨⟨some us⟩⟩) gm =
        .success
          { videoUrl := url
            cleanedSegments :=
              cleanupStage (us.map fun u => ⟨u.start, u.«end», u.transcript⟩) gm
            totalDuration :=
              match us.getLast? with
              | some u => u.«end»
              | none => 0
            segmentCount := us.length
            audioSizeBytes := bytes.length } := by
  intro url bytes t us gm ht hb hu
  have hlen : ¬ bytes.length = 0 := fun h => hb (List.length_eq_zero.mp h)
  have hulen : ¬ us.length = 0 := fun h => hu (List.length_eq_zero.mp h)
  have hpos : 0 < us.length := Nat.pos_of_ne_zero hulen
  simp only [processYouTubeTranscript, downloadAudioToBuffer, if_pos ht,
    transcribeWithDeepgram, if_neg hlen, if_neg hulen, List.length_map,
    List.getLast?_map, gt_iff_lt, if_pos hpos]
  cases hgl : us.getLast? <;> simp [hgl]

theorem c6_duration_amended_witness :
    processYouTubeTranscript "u" (.ended [0]) 0
        (.ok ⟨⟨some [⟨0, 7, "hi"⟩]⟩⟩) (.fail "x") =
      .success
        { videoUrl := "u"
          cleanedSegments := cleanupStage [⟨0, 7, "hi"⟩] (.fail "x")
          totalDuration := 7
          segmentCount := 1
          audioSizeBytes := 1 } :=
  c6_duration_amended "u" [0] 0 [⟨0, 7, "hi"⟩] (.fail "x")
    (by decide) (List.cons_ne_nil _ _) (List.cons_ne_nil _ _)

/-- C7, confirmed: a transcription result with no utterance list, or an empty
one, fails the pipeline with the fixed no-utterances message, and that
message differs from every transport-failure message (which always carries
the `Deepgram transcription failed: ` prefix). -/
theorem c7_no_utterances_distinct :
    (∀ (url : String) (bytes : List UInt8) (t : Nat) (gm : GeminiOutcome),
        t < downloadTimeoutMs → bytes ≠ [] →
        processYouTubeTranscript url (.ended bytes) t (.ok ⟨⟨none⟩⟩) gm =
          .failure "No utterances detected in the transcript." ∧
        processYouTubeTranscript url (.ended bytes) t (.ok ⟨⟨some []⟩⟩) gm =
          .failure "No utterances detected in the transcript.") ∧
    (∀ (url : String) (bytes : List UInt8) (t : Nat) (gm : GeminiOutcome)
        (m : String), t < downloadTimeoutMs → bytes ≠ [] →
        processYouTubeTranscript url (.ended bytes) t (.fail m) gm =
          .failure ("Deepgram transcription failed: " ++ m)) ∧
    (∀ m : String,
        "No utterances detected in the transcript." ≠
          "Deepgram transcription failed: " ++ m) := by
  refine ⟨?_, ?_, ?_⟩
  · intro url bytes t gm ht hb
    have hlen : ¬ bytes.length = 0 := fun h => hb (List.length_eq_zero.mp h)
    constructor <;>
      simp [processYouTubeTranscript, downloadAudioToBuffer, if_pos ht, hlen,
        transcribeWithDeepgram]
  · intro url bytes t gm m ht hb
    have hlen : ¬ bytes.length = 0 := fun h => hb (List.length_eq_zero.mp h)
    simp [processYouTubeTranscript, downloadAudioToBuffer, if_pos ht, hlen,
      transcribeWithDeepgram]
  · intro m h
    have h2 : ("No utterances detected in the transcript.".data.head?) =
        (("Deepgram transcription failed: " ++ m).data.head?) := by rw [h]
    rw [show ("Deepgram transcription failed: " ++ m).data.head? = some 'D'
          from rfl] at h2
    exact absurd h2 (by decide)

theorem c7_no_utterances_distinct_witness :
    processYouTubeTranscript "u" (.ended [0]) 0 (.ok ⟨⟨some []⟩⟩) (.fail "x") =
      .failure "No utterances detected in the transcript." ∧
    processYouTubeTranscript "u" (.ended [0]) 0 (.fail "socket hang up") (.fail "x") =
      .failure ("Deepgram transcription failed: " ++ "socket hang up") :=
  ⟨(c7_no_utterances_distinct.1 "u" [0] 0 (.fail "x") (by decide) (by decide)).2,
   c7_no_utterances_distinct.2.1 "u" [0] 0 (.fail "x") "socket hang up"
     (by decide) (by decide)⟩

/-- C8, confirmed: the download promise is bounded by the 90000 ms timer —
any stream event at or after it yields the fixed timeout failure — a stream
error before the timer fails the pipeline with the stream's message, and a
stream that ends with zero bytes fails it with the fixed empty-buffer
message; the two fixed messages are distinct. -/
theorem c8_download_failure_modes :
    (∀ (url : String) (ev : StreamEvent) (t : Nat) (tr : TranscribeOutcome)
        (gm : GeminiOutcome), downloadTimeoutMs ≤ t →
        processYouTubeTranscript url ev t tr gm =
          .failure "Audio download timeout after 90 seconds") ∧
    (∀ (url m : String) (t : Nat) (tr : TranscribeOutcome) (gm : GeminiOutcome),
        t < downloadTimeoutMs →
        processYouTubeTranscript url (.errored m) t tr gm = .failure m) ∧
    (∀ (url : String) (t : Nat) (tr : TranscribeOutcome) (gm : GeminiOutcome),
        t < downloadTimeoutMs →
        processYouTubeTranscript url (.ended []) t tr gm =
          .failure "Downloaded audio buffer is empty") ∧
    downloadTimeoutMs = 90 * 1000 ∧
    ("Audio download timeout after 90 seconds" : String) ≠
      "Downloaded audio buffer is empty" := by
  refine ⟨?_, ?_, ?_, rfl, by decide⟩
  · intro url ev t tr gm ht
    have hnt : ¬ t < downloadTimeoutMs := Nat.not_lt.mpr ht
    simp [processYouTubeTranscript, downloadAudioToBuffer, if_neg hnt]
  · intro url m t tr gm ht
    simp [processYouTubeTranscript, downloadAudioToBuffer, if_pos ht]
  · intro url t tr gm ht
    simp [processYouTubeTranscript, downloadAudioToBuffer, if_pos ht]

theorem c8_download_failure_modes_witness :
    processYouTubeTranscript "u" (.ended [0]) 90000 (.fail "x") (.fail "y") =
      .failure "Audio download timeout after 90 seconds" ∧
    processYouTubeTranscript "u" (.errored "tube error") 10 (.fail "x") (.fail "y") =
      .failure "tube error" ∧
    processYouTubeTranscript "u" (.ended []) 10 (.fail "x") (.fail "y") =
      .failure "Downloaded audio buffer is empty" :=
  ⟨c8_download_failure_modes.1 "u" (.ended [0]) 90000 (.fail "x") (.fail "y")
     (by decide),
   c8_download_failure_modes.2.1 "u" "tube error" 10 (.fail "x") (.fail "y")
     (by decide),
   c8_download_failure_modes.2.2.1 "u" 10 (.fail "x") (.fail "y") (by decide)⟩

/-- C9, confirmed: a request with no `url` parameter gets status 400 with
`success:false`, and a request whose `url` fails the YouTube regex gets
status 400 with `success:false`, in both cases for every pipeline `proc` and
every key configuration — that is, before the env checks and before the
pipeline is consulted at all; the spec's example `not-a-youtube-link` fails
the regex. -/
theorem c9_url_validation_400 :
    (∀ (dg gm : Bool) (proc : String → ProcessResult),
        GET none dg gm proc =
          ⟨400, false, some "YouTube URL is required. Use ?url=<youtube_url>", none⟩) ∧
    (∀ (s : String) (dg gm : Bool) (proc : String → ProcessResult),
        youtubeRegexTest s = false → s ≠ "" →
        GET (some s) dg gm proc =
          ⟨400, false, some "Invalid YouTube URL format", none⟩) ∧
    youtubeRegexTest "not-a-youtube-link" = false := by
  refine ⟨?_, ?_, by decide⟩
  · intro dg gm proc
    rfl
  · intro s dg gm proc hs hne
    simp [GET, hs, hne]

theorem c9_url_validation_400_witness :
    GET (some "not-a-youtube-link") true true (fun u => .failure u) =
      ⟨400, false, some "Invalid YouTube URL format", none⟩ :=
  c9_url_validation_400.2.1 "not-a-youtube-link" true true (fun u => .failure u)
    (by decide) (by decide)

/-- C10, confirmed: the YouTube regex is anchored only at the start, so any
extension of a matching string still matches, and the handler then forwards
the entire extended string — unmodified — to the pipeline. -/
theorem c10_prefix_validation_forwarding :
    ∀ (s t : String) (proc : String → ProcessResult),
      youtubeRegexTest s = true →
      youtubeRegexTest (s ++ t) = true ∧
      GET (some (s ++ t)) true true proc = respondWithResult (proc (s ++ t)) := by
  intro s t proc hs
  have hst : youtubeRegexTest (s ++ t) = true := by
    show youtubeRegexTestL (s.data ++ t.data) = true
    exact youtubeRegexTestL_append _ _ hs
  refine ⟨hst, ?_⟩
  have hne : s ++ t ≠ "" := by
    intro h
    have hsd : s.data = [] :=
      (List.append_eq_nil.mp (congrArg String.data h)).1
    unfold youtubeRegexTest at hs
    rw [hsd] at hs
    exact absurd hs (by decide)
  simp [GET, hst, hne]

theorem c10_prefix_validation_forwarding_witness :
    youtubeRegexTest ("https://www.youtube.com/watch?v=dQw4w9WgXcQ" ++
        " junk https://youtu.be/x]") = true ∧
    GET (some ("https://www.youtube.com/watch?v=dQw4w9WgXcQ" ++
        " junk https://youtu.be/x]")) true true (fun u => .failure u) =
      respondWithResult ((fun u => .failure u)
        ("https://www.youtube.com/watch?v=dQw4w9WgXcQ" ++
          " junk https://youtu.be/x]")) :=
  c10_prefix_validation_forwarding "https://www.youtube.com/watch?v=dQw4w9WgXcQ"
    " junk https://youtu.be/x]" (fun u => .failure u) (by decide)

end CleanScript
